import Mathlib

/-!
Shallow embedding of the configuration subsystem of the gateway repository
(src/config/utils.ts) together with models of the collaborators it uses.
The sources of ConfigManagerV2 (services/config-manager-v2), the string
helpers (services/string-utils, services/base) and the filesystem layer are
not part of the repository snapshot; the definitions below that stand for
them carry a doc comment starting with "Modelled from the spec:".

Conventions of the embedding:
* JavaScript numbers are modelled as rationals; NaN and the infinities are
  not representable (they never arise on the paths the claims exercise).
* JSON objects are modelled as association lists of string keys in insertion
  order, matching the enumeration order of JavaScript object keys.
* The store operations take a config path as a list of segments, the form
  ConfigManagerV2 works on after splitting the dotted string (spec section
  3).  The pool operations build the dotted configPath string of the source
  and split it on dots, so identifiers containing dots address deeper paths
  exactly as in the program.  The token operations pass their segments
  directly, which coincides with the source when the network name contains
  no dot.
* Files hold parsed token lists; an absent entry is a missing file.  A
  mutating operation returns its error outcome together with the resulting
  file state, so a result whose file state equals the input state performed
  no write.
-/

namespace Gateway

/-- Is the first list a prefix of the second, on characters.  Used to model
the TypeScript String.endsWith via reversed character lists. -/
def listStartsWith : List Char → List Char → Bool
  | [], _ => true
  | _ :: _, [] => false
  | a :: as, b :: bs => a == b && listStartsWith as bs

/-- Model of the TypeScript String.endsWith used on config paths. -/
def strEndsWith (s suf : String) : Bool :=
  listStartsWith suf.data.reverse s.data.reverse

/-- Splitting a character list at every occurrence of a separator; model of
the TypeScript String.split with a one-character separator. -/
def splitOnChar (sep : Char) : List Char → List (List Char)
  | [] => [[]]
  | c :: rest =>
    match splitOnChar sep rest with
    | h :: t => if c == sep then [] :: h :: t else (c :: h) :: t
    | [] => [[c]]

/-- A nonempty all-digit character list: an unsigned decimal numeral. -/
def isNatChars (l : List Char) : Bool := !(l.isEmpty) && l.all Char.isDigit

/-- The numeric value of a digit list, most significant digit first. -/
def charsToNat (l : List Char) : Nat :=
  Nat.ofDigits 10 ((l.map (fun c => c.toNat - 48)).reverse)

/-- The decimal numeral of a natural number, as a character list. -/
def natToChars (n : Nat) : List Char :=
  if n = 0 then ['0'] else ((Nat.digits 10 n).map Nat.digitChar).reverse

/-- Modelled from the spec: isFloatString (services/string-utils is not in
the snapshot).  The spec speaks of a numeric string; we model unsigned
decimal numerals with an optional single decimal point. -/
def isFloatChars (l : List Char) : Bool :=
  match splitOnChar '.' l with
  | [a] => isNatChars a
  | [a, b] => isNatChars a && isNatChars b
  | _ => false

/-- Modelled from the spec: isFloatString on strings. -/
def isFloatString (s : String) : Bool := isFloatChars s.data

/-- Modelled from the spec: the numeric value of a numeric string, that is
parseFloat restricted to the numerals accepted by isFloatString. -/
def parseFloatChars (l : List Char) : ℚ :=
  match splitOnChar '.' l with
  | [a] => (charsToNat a : ℚ)
  | [a, b] => (charsToNat a : ℚ) + (charsToNat b : ℚ) / (10 : ℚ) ^ b.length
  | _ => 0

/-- Modelled from the spec: parseFloat on numeric strings. -/
def parseFloatQ (s : String) : ℚ := parseFloatChars s.data

/-- Modelled from the spec: isFractionString (services/string-utils), a
fraction string of shape numeral-slash-numeral. -/
def isFractionChars (l : List Char) : Bool :=
  match splitOnChar '/' l with
  | [a, b] => isNatChars a && isNatChars b
  | _ => false

/-- Modelled from the spec: isFractionString on strings. -/
def isFractionString (s : String) : Bool := isFractionChars s.data

/-- Modelled from the spec: fromFractionString (services/base), the value of
a fraction string, none when the string is not a fraction string or the
denominator is zero. -/
def fromFractionChars (l : List Char) : Option ℚ :=
  match splitOnChar '/' l with
  | [a, b] =>
    if isNatChars a && isNatChars b then
      if charsToNat b = 0 then none
      else some ((charsToNat a : ℚ) / (charsToNat b : ℚ))
    else none
  | _ => none

/-- Modelled from the spec: fromFractionString on strings. -/
def fromFractionString (s : String) : Option ℚ := fromFractionChars s.data

/-- Model of the TypeScript String.toLowerCase, per character (ASCII). -/
def lowerStr (s : String) : String := String.mk (s.data.map Char.toLower)

/-- Model of the TypeScript String.toUpperCase, per character (ASCII). -/
def upperStr (s : String) : String := String.mk (s.data.map Char.toUpper)

/-- Model of Array.prototype.join with a comma separator. -/
def joinComma : List String → String
  | [] => ""
  | [x] => x
  | x :: y :: rest => x ++ ", " ++ joinComma (y :: rest)

/-- A JSON-like configuration value: the payload type of the config tree and
of request bodies (the TypeScript side types it as any). -/
inductive CVal : Type where
  | str : String → CVal
  | num : ℚ → CVal
  | boolV : Bool → CVal
  | obj : List (String × CVal) → CVal
  | arr : List CVal → CVal

/-- JavaScript truthiness of a configuration value.  NaN is not representable
in the rational model; null and undefined are modelled as absence. -/
def CVal.truthy : CVal → Bool
  | CVal.str s => decide (s ≠ "")
  | CVal.num q => decide (q ≠ 0)
  | CVal.boolV b => b
  | CVal.obj _ => true
  | CVal.arr _ => true

/-- The error taxonomy of the HTTP layer: each constructor is one status
class of the fastify httpErrors used by the source. -/
inductive GatewayError : Type where
  | badRequest : String → GatewayError
  | conflict : String → GatewayError
  | notFound : String → GatewayError
  | internalError : String → GatewayError
deriving DecidableEq

/-- Source src/config/utils.ts lines 12-13. -/
def invalidAllowedSlippage : String :=
  "allowedSlippage should be a number between 0.0 and 1.0 or a string of a fraction."

/-- Source src/config/utils.ts lines 16-27 (isAllowedPercentage).  The final
arm of the source only ever receives numbers (the argument is typed
string-or-number); the extra constructors of CVal are unreachable through
validateAllowedSlippage and are mapped to false. -/
def isAllowedPercentage : CVal → Bool
  | CVal.str s =>
    if isFloatString s then
      decide (0 ≤ parseFloatQ s) && decide (parseFloatQ s < 1)
    else
      match fromFractionString s with
      | some q => decide (0 ≤ q) && decide (q < 1)
      | none => false
  | CVal.num q => decide (0 ≤ q) && decide (q < 1)
  | _ => false

/-- Source src/config/utils.ts lines 29-46 (validateAllowedSlippage). -/
def validateAllowedSlippage (configPath : String) (configValue : CVal) :
    Except GatewayError Unit :=
  if strEndsWith configPath "allowedSlippage" then
    if ((match configValue with
         | CVal.num _ => true
         | CVal.str s => isFractionString s || isFloatString s
         | _ => false) && isAllowedPercentage configValue) then
      Except.ok ()
    else
      Except.error (GatewayError.badRequest invalidAllowedSlippage)
  else Except.ok ()

/-- The acceptance predicate exactly as claim C1 words it: a plain number in
the interval from zero inclusive to one exclusive, or a numeric string whose
parsed value lies in that interval, or a fraction string with nonzero
denominator whose value lies in that interval. -/
def slippageClaimAccepts : CVal → Bool
  | CVal.num q => decide (0 ≤ q) && decide (q < 1)
  | CVal.str s =>
    (isFloatString s && decide (0 ≤ parseFloatQ s) && decide (parseFloatQ s < 1)) ||
    (match fromFractionString s with
     | some q => decide (0 ≤ q) && decide (q < 1)
     | none => false)
  | _ => false

theorem splitOnChar_ne_nil (sep : Char) (l : List Char) : splitOnChar sep l ≠ [] := by
  induction l with
  | nil => simp [splitOnChar]
  | cons c rest ih =>
    unfold splitOnChar
    cases h : splitOnChar sep rest with
    | nil => exact absurd h ih
    | cons a t => cases hc : c == sep <;> simp [hc]

theorem splitOnChar_of_not_mem (sep : Char) (l : List Char)
    (h : ∀ c ∈ l, c ≠ sep) : splitOnChar sep l = [l] := by
  induction l with
  | nil => rfl
  | cons c rest ih =>
    have hc : c ≠ sep := h c (List.mem_cons_self _ _)
    have hr : splitOnChar sep rest = [rest] :=
      ih (fun x hx => h x (List.mem_cons_of_mem _ hx))
    unfold splitOnChar
    rw [hr]
    simp [hc]

theorem exists_part_of_mem (sep : Char) (l : List Char) (c : Char)
    (hc : c ∈ l) (hne : c ≠ sep) : ∃ p ∈ splitOnChar sep l, c ∈ p := by
  induction l with
  | nil => cases hc
  | cons x rest ih =>
    cases h : splitOnChar sep rest with
    | nil => exact absurd h (splitOnChar_ne_nil sep rest)
    | cons p0 t =>
      rcases List.mem_cons.mp hc with rfl | hmem
      · refine ⟨c :: p0, ?_, List.mem_cons_self _ _⟩
        unfold splitOnChar
        rw [h]
        simp [hne]
      · rcases ih hmem with ⟨p, hp, hcp⟩
        rw [h] at hp
        by_cases hx : x = sep
        · refine ⟨p, ?_, hcp⟩
          unfold splitOnChar
          rw [h]
          simp only [hx]
          simp [hp]
        · rcases List.mem_cons.mp hp with rfl | hpt
          · refine ⟨x :: p, ?_, List.mem_cons_of_mem _ hcp⟩
            unfold splitOnChar
            rw [h]
            simp [hx]
          · refine ⟨p, ?_, hcp⟩
            unfold splitOnChar
            rw [h]
            simp [hx, hpt]

theorem isFloatChars_not_slash (l : List Char) (h : isFloatChars l = true) :
    ∀ c ∈ l, c ≠ '/' := by
  intro c hc hcs
  subst hcs
  have hne : ('/' : Char) ≠ '.' := by decide
  rcases exists_part_of_mem '.' l '/' hc hne with ⟨p, hp, hcp⟩
  unfold isFloatChars at h
  cases hsplit : splitOnChar '.' l with
  | nil => rw [hsplit] at h; simp at h
  | cons a t =>
    rw [hsplit] at h hp
    cases t with
    | nil =>
      have hpa : p = a := by simpa using hp
      subst hpa
      have hall : p.all Char.isDigit = true := by
        simp only [isNatChars, Bool.and_eq_true] at h
        exact h.2
      have hd := List.all_eq_true.mp hall _ hcp
      simp at hd
    | cons b t2 =>
      cases t2 with
      | nil =>
        simp only [isNatChars, Bool.and_eq_true] at h
        rcases (by simpa using hp : p = a ∨ p = b) with hpa | hpb
        · subst hpa
          have hd := List.all_eq_true.mp h.1.2 _ hcp
          simp at hd
        · subst hpb
          have hd := List.all_eq_true.mp h.2.2 _ hcp
          simp at hd
      | cons _ _ => simp at h

theorem fromFractionChars_eq_none_of_float (l : List Char)
    (h : isFloatChars l = true) : fromFractionChars l = none := by
  unfold fromFractionChars
  rw [splitOnChar_of_not_mem '/' l (isFloatChars_not_slash l h)]

theorem isFractionChars_of_fromFraction (l : List Char) (q : ℚ)
    (h : fromFractionChars l = some q) : isFractionChars l = true := by
  unfold fromFractionChars at h
  unfold isFractionChars
  cases hs : splitOnChar '/' l with
  | nil => rw [hs] at h; simp at h
  | cons a t =>
    rw [hs] at h
    cases t with
    | nil => simp at h
    | cons b t2 =>
      cases t2 with
      | nil =>
        by_cases hg : (isNatChars a && isNatChars b) = true
        · simp [hg]
        · simp [hg] at h
      | cons _ _ => simp at h

/-- C1: on a path ending in allowedSlippage, validateAllowedSlippage accepts
exactly the values described by the claim (a number in the unit interval
excluding one, a numeric string whose parsed value lies there, or a fraction
string with nonzero denominator whose value lies there) and rejects every
other value with the bad-request InvalidRange error. -/
theorem c1_validate_allowed_slippage (path : String) (v : CVal)
    (hpath : strEndsWith path "allowedSlippage" = true) :
    validateAllowedSlippage path v =
      (if slippageClaimAccepts v then Except.ok ()
       else Except.error (GatewayError.badRequest invalidAllowedSlippage)) := by
  unfold validateAllowedSlippage
  rw [hpath]
  cases v with
  | num q => simp [isAllowedPercentage, slippageClaimAccepts]
  | boolV b => simp [isAllowedPercentage, slippageClaimAccepts]
  | obj fields => simp [isAllowedPercentage, slippageClaimAccepts]
  | arr items => simp [isAllowedPercentage, slippageClaimAccepts]
  | str s =>
    by_cases hf : isFloatString s = true
    · have hnone : fromFractionString s = none :=
        fromFractionChars_eq_none_of_float s.data hf
      simp [isAllowedPercentage, slippageClaimAccepts, hf, hnone]
    · have hf2 : isFloatString s = false := by
        cases hval : isFloatString s
        · rfl
        · exact absurd hval hf
      cases hfr : fromFractionString s with
      | none => simp [isAllowedPercentage, slippageClaimAccepts, hf2, hfr]
      | some q =>
        have hfrac : isFractionString s = true :=
          isFractionChars_of_fromFraction s.data q hfr
        simp [isAllowedPercentage, slippageClaimAccepts, hf2, hfr, hfrac]

theorem c1_validate_allowed_slippage_witness :
    validateAllowedSlippage "uniswap.allowedSlippage" (CVal.num 2) =
      Except.error (GatewayError.badRequest invalidAllowedSlippage) := by
  rw [c1_validate_allowed_slippage "uniswap.allowedSlippage" (CVal.num 2) (by decide)]
  norm_num [slippageClaimAccepts]

/-! ## The namespace store and path resolver

Modelled from the spec, sections 4.1 and 4.2: ConfigManagerV2
(services/config-manager-v2) is not in the snapshot.  A namespace owns one
configuration tree, an object; get walks segments and returns the node or
absence, set creates missing intermediate objects and fails on a non-object
intermediate, delete is a no-op on an absent path.  Persistence always
succeeds in the model. -/

/-- Lookup in an association list with string keys (JavaScript property
read, first occurrence wins; well-formed objects have unique keys). -/
def alGet {α : Type} : List (String × α) → String → Option α
  | [], _ => none
  | (k2, v) :: t, k => if k2 == k then some v else alGet t k

/-- Property write: replace the first entry with the key in place, append a
new entry at the end otherwise (JavaScript object insertion order). -/
def alSet {α : Type} : List (String × α) → String → α → List (String × α)
  | [], k, v => [(k, v)]
  | (k2, v2) :: t, k, v =>
    if k2 == k then (k, v) :: t else (k2, v2) :: alSet t k v

/-- Property delete: drop every entry with the key. -/
def alDel {α : Type} (l : List (String × α)) (k : String) : List (String × α) :=
  l.filter (fun p => !(p.1 == k))

/-- One configuration tree: a JSON object of config values. -/
abbrev Obj := List (String × CVal)

/-- The namespace store: one named configuration tree per chain or
connector. -/
abbrev ConfigStore := List (String × Obj)

/-- Modelled from the spec: the path resolver in WRITE mode on one tree.
Creates an empty object for a missing intermediate segment, fails (none, the
TypeMismatch of the spec) when an intermediate segment holds a non-object,
sets the value at the terminal segment. -/
def setObjPath : Obj → List String → CVal → Option Obj
  | fs, [s], v => some (alSet fs s v)
  | fs, s :: s2 :: rest, v =>
    match (match alGet fs s with | some c => c | none => CVal.obj []) with
    | CVal.obj cfs =>
      match setObjPath cfs (s2 :: rest) v with
      | some cfs2 => some (alSet fs s (CVal.obj cfs2))
      | none => none
    | _ => none
  | _, [], _ => none

/-- Modelled from the spec: the path resolver in READ mode on one tree.
Returns absence when an intermediate segment is missing or not an object;
never mutates. -/
def readObjPath : Obj → List String → Option CVal
  | fs, [] => some (CVal.obj fs)
  | fs, s :: rest =>
    match alGet fs s with
    | some v =>
      match rest with
      | [] => some v
      | _ :: _ =>
        match v with
        | CVal.obj cfs => readObjPath cfs rest
        | _ => none
    | none => none

/-- Modelled from the spec: deletion along a path in one tree; a no-op when
the path is absent (including a non-object intermediate). -/
def delObjPath : Obj → List String → Obj
  | fs, [] => fs
  | fs, [s] => alDel fs s
  | fs, s :: s2 :: rest =>
    match alGet fs s with
    | some (CVal.obj cfs) => alSet fs s (CVal.obj (delObjPath cfs (s2 :: rest)))
    | _ => fs

/-- Modelled from the spec: ConfigManagerV2 get.  The first segment selects
the namespace; absence of the namespace or the path yields absence, not an
error. -/
def cmGet (store : ConfigStore) (path : List String) : Option CVal :=
  match path with
  | [] => none
  | ns :: rest =>
    match alGet store ns with
    | some t => readObjPath t rest
    | none => none

/-- Modelled from the spec: ConfigManagerV2 set.  Lazily creates the
namespace of the first segment, delegates to the WRITE resolver; none is the
thrown TypeMismatch.  A path without a segment below the namespace is not
used by the source and is rejected. -/
def cmSet (store : ConfigStore) (path : List String) (v : CVal) :
    Option ConfigStore :=
  match path with
  | [] => none
  | [_] => none
  | ns :: rest =>
    match setObjPath (match alGet store ns with | some t => t | none => []) rest v with
    | some t2 => some (alSet store ns t2)
    | none => none

/-- Modelled from the spec: ConfigManagerV2 delete, a no-op when the path or
the namespace is absent. -/
def cmDelete (store : ConfigStore) (path : List String) : ConfigStore :=
  match path with
  | [] => store
  | [ns] => alDel store ns
  | ns :: rest =>
    match alGet store ns with
    | some t => alSet store ns (delObjPath t rest)
    | none => store

/-- Modelled from the spec: getNamespace, the configuration tree of a named
namespace or absence. -/
def getNamespace (store : ConfigStore) (name : String) : Option Obj :=
  alGet store name

/-! ## Token list synchronizer (src/config/utils.ts lines 102-257) -/

/-- A token list entry as persisted in the token list JSON file.  The
decimals field is a JavaScript number and is modelled as a rational. -/
structure TokenInfo : Type where
  chainId : Int
  address : String
  name : String
  symbol : String
  decimals : ℚ
deriving DecidableEq

/-- The filesystem restricted to token list files: path to parsed content;
a missing entry is a missing file.  File contents are modelled at the parsed
level (the source writes JSON it has just built, and the claims speak of the
list contents). -/
abbrev FS := List (String × List TokenInfo)

/-- Source line 112: every EVM network is configured under the ethereum
namespace, whatever the chain argument says. -/
def configChainName : String := "ethereum"

/-- Source lines 115-117: the keys of the ethereum networks config object
(or-empty applied to an absent or falsy value; enumeration of a truthy
non-object primitive, impossible for a well-formed config, is collapsed to
the empty key list). -/
def availableEthNetworks (store : ConfigStore) : List String :=
  match cmGet store [configChainName, "networks"] with
  | some (CVal.obj nets) => nets.map Prod.fst
  | _ => []

/-- Source lines 118-121 error message (quotes around the interpolated
values elided). -/
def unsupportedNetworkMsg (network : String) (nets : List String) : String :=
  "Network " ++ network ++ " is not a supported Ethereum-based network. Supported networks are: "
    ++ joinComma nets

/-- Source lines 129-133 error message. -/
def tokenSourceMissingMsg (network : String) : String :=
  "tokenListSource not configured for network " ++ network ++ "."

/-- Source lines 152-156 error message. -/
def conflictMsg (address symbol : String) : String :=
  "Token with address " ++ address ++ " or symbol " ++ symbol ++ " already exists."

/-- Source lines 182-188: a non-string truthy tokenListSource makes the file
layer throw, which the catch block wraps as an internal error. -/
def failAddMsg : String := "Failed to add token: invalid tokenListSource"

/-- Source lines 146-150: the duplicate test of addDefaultToken. -/
def isDuplicateOf (address symbol : String) (t : TokenInfo) : Bool :=
  lowerStr t.address == lowerStr address || upperStr t.symbol == upperStr symbol

/-- Source lines 102-189 (addDefaultToken).  The chain client is modelled by
the chainIdOf function (Ethereum.getInstance followed by chainId); reloading
the in-memory token index has no effect on the modelled state.  The result
pairs the outcome with the file state after the call: an error leaves the
input file state, the write of line 173 produces the updated one. -/
def addDefaultToken (store : ConfigStore) (chainIdOf : String → Int) (fs : FS)
    (chain network tokenName symbol address : String) (decimals : ℚ) :
    Except GatewayError Unit × FS :=
  let availableNetworks := availableEthNetworks store
  if !(availableNetworks.contains network) then
    (Except.error (GatewayError.badRequest (unsupportedNetworkMsg network availableNetworks)), fs)
  else
    match cmGet store [configChainName, "networks", network, "tokenListSource"] with
    | some v =>
      if v.truthy then
        match v with
        | CVal.str p =>
          let tokenList := (alGet fs p).getD []
          if tokenList.any (isDuplicateOf address symbol) then
            (Except.error (GatewayError.conflict (conflictMsg address symbol)), fs)
          else
            (Except.ok (),
             alSet fs p (tokenList ++ [⟨chainIdOf network, address, tokenName, symbol, decimals⟩]))
        | _ => (Except.error (GatewayError.internalError failAddMsg), fs)
      else
        (Except.error (GatewayError.internalError (tokenSourceMissingMsg network)), fs)
    | none =>
      (Except.error (GatewayError.internalError (tokenSourceMissingMsg network)), fs)

/-- Source lines 214-218 error message. -/
def tokenSourceMissingRemoveMsg (network : String) : String :=
  "tokenListSource not configured or found for network " ++ network ++ "."

/-- Source lines 233-237 error message. -/
def tokenNotFoundMsg (token : String) : String :=
  "Token " ++ token ++ " not found in the list."

/-- Source lines 250-256: wrapping of a file layer failure. -/
def failRemoveMsg : String := "Failed to remove token: invalid tokenListSource"

/-- Source lines 227-231: the filter of removeDefaultToken keeps a token when
neither its address nor its symbol equals the lowered identifier. -/
def keepsToken (normalized : String) (t : TokenInfo) : Bool :=
  !(lowerStr t.address == normalized) && !(lowerStr t.symbol == normalized)

/-- Source lines 191-257 (removeDefaultToken), with the same state threading
as addDefaultToken. -/
def removeDefaultToken (store : ConfigStore) (fs : FS)
    (chain network tokenToRemove : String) : Except GatewayError Unit × FS :=
  let availableNetworks := availableEthNetworks store
  if !(availableNetworks.contains network) then
    (Except.error (GatewayError.badRequest (unsupportedNetworkMsg network availableNetworks)), fs)
  else
    match cmGet store [configChainName, "networks", network, "tokenListSource"] with
    | some v =>
      if v.truthy then
        match v with
        | CVal.str p =>
          match alGet fs p with
          | none =>
            (Except.error (GatewayError.internalError (tokenSourceMissingRemoveMsg network)), fs)
          | some tokenList =>
            let normalized := lowerStr tokenToRemove
            let updatedTokenList := tokenList.filter (keepsToken normalized)
            if updatedTokenList.length = tokenList.length then
              (Except.error (GatewayError.notFound (tokenNotFoundMsg tokenToRemove)), fs)
            else
              (Except.ok (), alSet fs p updatedTokenList)
        | _ => (Except.error (GatewayError.internalError failRemoveMsg), fs)
      else
        (Except.error (GatewayError.internalError (tokenSourceMissingRemoveMsg network)), fs)
    | none =>
      (Except.error (GatewayError.internalError (tokenSourceMissingRemoveMsg network)), fs)

/-! ## Default pool registry (src/config/utils.ts lines 259-434) -/

/-- The connector argument split on slashes; the source destructures the
first two parts and JavaScript yields undefined (modelled as the empty
string) for a missing part. -/
def splitSlash (s : String) : List String :=
  (splitOnChar '/' s.data).map (fun l => String.mk l)

/-- The connector name: the part before the first slash. -/
def connectorNameOf (connector : String) : String :=
  (splitSlash connector).headD ""

/-- The connector type: the part after the first slash (empty when
missing). -/
def connectorTypeOf (connector : String) : String :=
  ((splitSlash connector).drop 1).headD ""

/-- Modelled from the spec: a dotted config path split into its segments
(spec section 3: a path is a dot-joined sequence of segments, and
ConfigManagerV2 re-splits the string it receives).  The pool operations
below build the dotted configPath of the source and hand its split to the
store, so an identifier containing a dot addresses a deeper path exactly as
in the program. -/
def splitDots (s : String) : List String :=
  (splitOnChar '.' s.data).map (fun l => String.mk l)


/-- Source lines 266-268 error message. -/
def connectorNameRequiredMsg : String := "Connector name is required"

/-- Source lines 270-274 error message. -/
def connectorTypeRequiredMsg : String := "Connector type is required (e.g., amm, clmm)"

/-- Source lines 322-326 error message. -/
def poolAddressRequiredMsg : String :=
  "Pool address is required for adding a default pool"

/-- Source lines 345-349 message of the thrown Error. -/
def connectorConfigMissingMsg (baseConnector : String) : String :=
  "Connector " ++ baseConnector ++ " configuration not found or missing networks"

/-- Source lines 353-355 message of the thrown Error. -/
def noNetworksConfiguredMsg (baseConnector : String) : String :=
  "No networks configured for " ++ baseConnector

/-- Source lines 370-375: the catch block wraps a thrown Error into an
internal server error. -/
def wrapAddPoolMsg (m : String) : String := "Failed to add default pool: " ++ m

/-- Source lines 428-433: same wrapping in removeDefaultPool. -/
def wrapRemovePoolMsg (m : String) : String := "Failed to remove default pool: " ++ m

/-- Source lines 294-298 (repeated at 357-361 and 415-419): the active
network is mainnet-beta when that entry is truthy, else the first configured
network. -/
def activeNetworkOf (nets : Obj) : String :=
  match alGet nets "mainnet-beta" with
  | some v => if v.truthy then "mainnet-beta" else (nets.map Prod.fst).headD ""
  | none => (nets.map Prod.fst).headD ""

/-- JavaScript truthiness of an optional string (the poolAddress request
field: undefined and the empty string are falsy). -/
def optStrTruthy : Option String → Bool
  | none => false
  | some a => decide (a ≠ "")

/-- Source lines 259-311 (getDefaultPools).  A truthy non-object networks
value (impossible for a well-formed config: key enumeration of a primitive)
is collapsed to the no-networks outcome; an absent or falsy networks value
and an absent namespace return the empty mapping as in the source.  The
pools node is returned through the or-empty of line 301: a falsy entry
becomes the empty object. -/
def getDefaultPools (store : ConfigStore) (connector : String) :
    Except GatewayError CVal :=
  let baseConnector := connectorNameOf connector
  let connectorType := connectorTypeOf connector
  if baseConnector = "" then
    Except.error (GatewayError.badRequest connectorNameRequiredMsg)
  else if connectorType = "" then
    Except.error (GatewayError.badRequest connectorTypeRequiredMsg)
  else
    match getNamespace store baseConnector with
    | none => Except.ok (CVal.obj [])
    | some fields =>
      match alGet fields "networks" with
      | some (CVal.obj nets) =>
        if nets.isEmpty then Except.ok (CVal.obj [])
        else
          let activeNetwork := activeNetworkOf nets
          match alGet nets activeNetwork with
          | some (CVal.obj netFields) =>
            match alGet netFields connectorType with
            | some pv => if pv.truthy then Except.ok pv else Except.ok (CVal.obj [])
            | none => Except.ok (CVal.obj [])
          | some _ => Except.ok (CVal.obj [])
          | none => Except.ok (CVal.obj [])
      | some v =>
        if v.truthy then Except.ok (CVal.obj [])
        else Except.ok (CVal.obj [])
      | none => Except.ok (CVal.obj [])

/-- Source lines 313-376 (addDefaultPool).  The thrown Errors of lines
346 and 354 and a set failure are wrapped by the catch block into internal
server errors; persistence always succeeds in the model. -/
def addDefaultPool (store : ConfigStore) (connector baseToken quoteToken : String)
    (poolAddress : Option String) : Except GatewayError ConfigStore :=
  let pairKey := baseToken ++ "-" ++ quoteToken
  if !(optStrTruthy poolAddress) then
    Except.error (GatewayError.badRequest poolAddressRequiredMsg)
  else
    let baseConnector := connectorNameOf connector
    let connectorType := connectorTypeOf connector
    if baseConnector = "" then
      Except.error (GatewayError.badRequest connectorNameRequiredMsg)
    else if connectorType = "" then
      Except.error (GatewayError.badRequest connectorTypeRequiredMsg)
    else
      match getNamespace store baseConnector with
      | none =>
        Except.error (GatewayError.internalError (wrapAddPoolMsg (connectorConfigMissingMsg baseConnector)))
      | some fields =>
        match alGet fields "networks" with
        | some (CVal.obj nets) =>
          if nets.isEmpty then
            Except.error (GatewayError.internalError (wrapAddPoolMsg (noNetworksConfiguredMsg baseConnector)))
          else
            let activeNetwork := activeNetworkOf nets
            let configPath := baseConnector ++ "." ++ "networks" ++ "." ++ activeNetwork
              ++ "." ++ connectorType ++ "." ++ pairKey
            match cmSet store (splitDots configPath) (CVal.str (poolAddress.getD "")) with
            | some store2 => Except.ok store2
            | none =>
              Except.error (GatewayError.internalError (wrapAddPoolMsg "set failed"))
        | some v =>
          if v.truthy then
            Except.error (GatewayError.internalError (wrapAddPoolMsg (noNetworksConfiguredMsg baseConnector)))
          else
            Except.error (GatewayError.internalError (wrapAddPoolMsg (connectorConfigMissingMsg baseConnector)))
        | none =>
          Except.error (GatewayError.internalError (wrapAddPoolMsg (connectorConfigMissingMsg baseConnector)))

/-- Source lines 378-434 (removeDefaultPool).  Deleting an absent pair is a
no-op of the store. -/
def removeDefaultPool (store : ConfigStore) (connector baseToken quoteToken : String) :
    Except GatewayError ConfigStore :=
  let pairKey := baseToken ++ "-" ++ quoteToken
  let baseConnector := connectorNameOf connector
  let connectorType := connectorTypeOf connector
  if baseConnector = "" then
    Except.error (GatewayError.badRequest connectorNameRequiredMsg)
  else if connectorType = "" then
    Except.error (GatewayError.badRequest connectorTypeRequiredMsg)
  else
    match getNamespace store baseConnector with
    | none =>
      Except.error (GatewayError.internalError (wrapRemovePoolMsg (connectorConfigMissingMsg baseConnector)))
    | some fields =>
      match alGet fields "networks" with
      | some (CVal.obj nets) =>
        if nets.isEmpty then
          Except.error (GatewayError.internalError (wrapRemovePoolMsg (noNetworksConfiguredMsg baseConnector)))
        else
          let activeNetwork := activeNetworkOf nets
          let configPath := baseConnector ++ "." ++ "networks" ++ "." ++ activeNetwork
            ++ "." ++ connectorType ++ "." ++ pairKey
          Except.ok (cmDelete store (splitDots configPath))
      | some v =>
        if v.truthy then
          Except.error (GatewayError.internalError (wrapRemovePoolMsg (noNetworksConfiguredMsg baseConnector)))
        else
          Except.error (GatewayError.internalError (wrapRemovePoolMsg (connectorConfigMissingMsg baseConnector)))
      | none =>
        Except.error (GatewayError.internalError (wrapRemovePoolMsg (connectorConfigMissingMsg baseConnector)))

/-! ## Slippage normalizer (src/config/utils.ts lines 49-61) -/

/-- Modelled from the spec: toFractionString (services/base is not in the
snapshot).  The spec requires a fraction-string representation of a numeric
or plain-numeric-string input that round-trips through the percentage
validator; we model the reduced fraction of the rational value.  Inputs
outside the spec description (non-numeric strings and negative values,
which the caller never passes after validation) are mapped to the empty
string. -/
def toFractionStringOfQ (q : ℚ) : String :=
  String.mk (natToChars q.num.toNat ++ '/' :: natToChars q.den)

/-- Modelled from the spec: toFractionString on a config value. -/
def toFractionString : CVal → CVal
  | CVal.num q => CVal.str (toFractionStringOfQ q)
  | CVal.str s =>
    if isFloatString s then CVal.str (toFractionStringOfQ (parseFloatQ s))
    else CVal.str ""
  | v => v

/-- Source lines 49-61 (updateAllowedSlippageToFraction): on a path ending
in allowedSlippage, a number or a non-fraction string is replaced by its
fraction-string form; anything else, fraction strings included, passes
through unchanged. -/
def updateAllowedSlippageToFraction (configPath : String) (configValue : CVal) : CVal :=
  if strEndsWith configPath "allowedSlippage" then
    match configValue with
    | CVal.num q => toFractionString (CVal.num q)
    | CVal.str s =>
      if !(isFractionString s) then toFractionString (CVal.str s) else CVal.str s
    | v => v
  else configValue

/-! ## Association list lemmas -/

theorem alGet_alSet_self {α : Type} (l : List (String × α)) (k : String) (v : α) :
    alGet (alSet l k v) k = some v := by
  induction l with
  | nil => simp [alSet, alGet]
  | cons p t ih =>
    obtain ⟨k2, v2⟩ := p
    by_cases h : k2 = k
    · simp [alSet, alGet, h]
    · simp [alSet, alGet, h, ih]

theorem alGet_alSet_ne {α : Type} (l : List (String × α)) (k k2 : String) (v : α)
    (h : k ≠ k2) : alGet (alSet l k v) k2 = alGet l k2 := by
  induction l with
  | nil => simp [alSet, alGet, h]
  | cons p t ih =>
    obtain ⟨k3, v3⟩ := p
    by_cases h3 : k3 = k
    · subst h3
      simp [alSet, alGet, h]
    · simp [alSet, alGet, h3, ih]

theorem alSet_alSet {α : Type} (l : List (String × α)) (k : String) (v w : α) :
    alSet (alSet l k v) k w = alSet l k w := by
  induction l with
  | nil => simp [alSet]
  | cons p t ih =>
    obtain ⟨k2, v2⟩ := p
    by_cases h : k2 = k
    · simp [alSet, h]
    · simp [alSet, h, ih]

theorem alSet_eq_self {α : Type} (l : List (String × α)) (k : String) (v : α)
    (h : alGet l k = some v) : alSet l k v = l := by
  induction l with
  | nil => simp [alGet] at h
  | cons p t ih =>
    obtain ⟨k2, v2⟩ := p
    by_cases h2 : k2 = k
    · subst h2
      simp [alGet] at h
      simp [alSet, h]
    · simp [alGet, h2] at h
      simp [alSet, h2, ih h]

theorem alDel_alSet_of_none {α : Type} (l : List (String × α)) (k : String) (v : α)
    (h : alGet l k = none) : alDel (alSet l k v) k = l := by
  induction l with
  | nil => simp [alSet, alDel]
  | cons p t ih =>
    obtain ⟨k2, v2⟩ := p
    by_cases h2 : k2 = k
    · simp [alGet, h2] at h
    · simp [alGet, h2] at h
      simp [alSet, alDel, h2, List.filter]
      have := ih h
      simpa [alDel] using this

theorem alSet_keys_of_mem {α : Type} (l : List (String × α)) (k : String) (v w : α)
    (h : alGet l k = some w) : (alSet l k v).map Prod.fst = l.map Prod.fst := by
  induction l with
  | nil => simp [alGet] at h
  | cons p t ih =>
    obtain ⟨k2, v2⟩ := p
    by_cases h2 : k2 = k
    · subst h2
      simp [alSet]
    · simp [alGet, h2] at h
      simp [alSet, h2, ih h]

theorem alSet_ne_nil {α : Type} (l : List (String × α)) (k : String) (v : α) :
    alSet l k v ≠ [] := by
  cases l with
  | nil => simp [alSet]
  | cons p t =>
    obtain ⟨k2, v2⟩ := p
    by_cases h : k2 = k <;> simp [alSet, h]

theorem alGet_head {α : Type} (k : String) (v : α) (t : List (String × α)) :
    alGet ((k, v) :: t) k = some v := by
  simp [alGet]

/-! ## Digit numeral lemmas -/

theorem digitChar_isDigit (d : Nat) (hd : d < 10) : (Nat.digitChar d).isDigit = true := by
  interval_cases d <;> decide

theorem digitChar_toNat (d : Nat) (hd : d < 10) : (Nat.digitChar d).toNat - 48 = d := by
  interval_cases d <;> decide

theorem natToChars_all_digit (n : Nat) : ∀ c ∈ natToChars n, c.isDigit = true := by
  intro c hc
  unfold natToChars at hc
  by_cases h : n = 0
  · simp [h] at hc
    subst hc
    decide
  · simp only [h, if_false] at hc
    rw [List.mem_reverse] at hc
    rcases List.mem_map.mp hc with ⟨d, hd, rfl⟩
    exact digitChar_isDigit d (Nat.digits_lt_base (by norm_num) hd)

theorem natToChars_ne_nil (n : Nat) : natToChars n ≠ [] := by
  unfold natToChars
  by_cases h : n = 0
  · simp [h]
  · simp only [h, if_false]
    simp [Nat.digits_ne_nil_iff_ne_zero, h]

theorem charsToNat_natToChars (n : Nat) : charsToNat (natToChars n) = n := by
  by_cases h : n = 0
  · subst h
    decide
  · unfold natToChars charsToNat
    simp only [h, if_false]
    rw [List.map_reverse, List.reverse_reverse, List.map_map]
    have hmap : List.map ((fun c => c.toNat - 48) ∘ Nat.digitChar) (Nat.digits 10 n)
        = List.map id (Nat.digits 10 n) :=
      List.map_congr_left
        (fun d hd => by
          simpa using digitChar_toNat d (Nat.digits_lt_base (by norm_num) hd))
    rw [hmap, List.map_id]
    exact Nat.ofDigits_digits 10 n

theorem isNatChars_natToChars (n : Nat) : isNatChars (natToChars n) = true := by
  unfold isNatChars
  rw [Bool.and_eq_true]
  constructor
  · cases hl : natToChars n with
    | nil => exact absurd hl (natToChars_ne_nil n)
    | cons c t => simp
  · exact List.all_eq_true.mpr (natToChars_all_digit n)

theorem ne_of_isDigit (c d : Char) (h : c.isDigit = true) (hd : d.isDigit = false) :
    c ≠ d := by
  intro he
  rw [he, hd] at h
  cases h

theorem splitOnChar_append (sep : Char) (a b : List Char)
    (ha : ∀ c ∈ a, c ≠ sep) :
    splitOnChar sep (a ++ sep :: b) = a :: splitOnChar sep b := by
  induction a with
  | nil =>
    simp only [List.nil_append]
    conv_lhs => unfold splitOnChar
    cases h : splitOnChar sep b with
    | nil => exact absurd h (splitOnChar_ne_nil sep b)
    | cons x t => simp
  | cons c as ih =>
    have hc : c ≠ sep := ha c (List.mem_cons_self _ _)
    have hr := ih (fun x hx => ha x (List.mem_cons_of_mem _ hx))
    simp only [List.cons_append]
    conv_lhs => unfold splitOnChar
    rw [hr]
    simp [hc]

/-- The fraction string produced by the modelled toFractionString parses
back to the same rational, is a fraction string, and is not a float
string. -/
theorem toFractionStringOfQ_roundtrip (q : ℚ) (hq : 0 ≤ q) :
    isFractionString (toFractionStringOfQ q) = true ∧
    isFloatString (toFractionStringOfQ q) = false ∧
    fromFractionString (toFractionStringOfQ q) = some q := by
  have hslash : ('/' : Char).isDigit = false := by decide
  have hdot : ('.' : Char).isDigit = false := by decide
  have hna : ∀ c ∈ natToChars q.num.toNat, c ≠ '/' :=
    fun c hc => ne_of_isDigit c '/' (natToChars_all_digit _ c hc) hslash
  have hnb : ∀ c ∈ natToChars q.den, c ≠ '/' :=
    fun c hc => ne_of_isDigit c '/' (natToChars_all_digit _ c hc) hslash
  have hdata : (toFractionStringOfQ q).data
      = natToChars q.num.toNat ++ '/' :: natToChars q.den := rfl
  have hsplit : splitOnChar '/' (toFractionStringOfQ q).data
      = [natToChars q.num.toNat, natToChars q.den] := by
    rw [hdata, splitOnChar_append '/' _ _ hna,
        splitOnChar_of_not_mem '/' _ hnb]
  have hden : charsToNat (natToChars q.den) = q.den := charsToNat_natToChars _
  have hnum : charsToNat (natToChars q.num.toNat) = q.num.toNat :=
    charsToNat_natToChars _
  have hdenne : q.den ≠ 0 := q.den_nz
  refine ⟨?_, ?_, ?_⟩
  · unfold isFractionString isFractionChars
    rw [hsplit]
    simp [isNatChars_natToChars]
  · have hnodot : ∀ c ∈ (toFractionStringOfQ q).data, c ≠ '.' := by
      rw [hdata]
      intro c hc
      rcases List.mem_append.mp hc with hmem | hmem
      · exact ne_of_isDigit c '.' (natToChars_all_digit _ c hmem) hdot
      · rcases List.mem_cons.mp hmem with rfl | hmem2
        · decide
        · exact ne_of_isDigit c '.' (natToChars_all_digit _ c hmem2) hdot
    unfold isFloatString isFloatChars
    rw [splitOnChar_of_not_mem '.' _ hnodot]
    have hall : ((toFractionStringOfQ q).data.all Char.isDigit) = false := by
      cases hv : ((toFractionStringOfQ q).data.all Char.isDigit) with
      | false => rfl
      | true =>
        have hmem : ('/' : Char) ∈ (toFractionStringOfQ q).data := by
          rw [hdata]
          exact List.mem_append.mpr (Or.inr (List.mem_cons_self _ _))
        have := List.all_eq_true.mp hv _ hmem
        cases this
    simp [isNatChars, hall]
  · unfold fromFractionString fromFractionChars
    rw [hsplit]
    simp only [isNatChars_natToChars, Bool.and_self, if_true, hden, hnum]
    rw [if_neg hdenne]
    have hnumcast : ((q.num.toNat : ℤ) : ℚ) = (q.num : ℚ) := by
      rw [Int.toNat_of_nonneg (Rat.num_nonneg.mpr hq)]
    have : ((q.num.toNat : ℚ) / (q.den : ℚ)) = q := by
      push_cast at hnumcast ⊢
      rw [hnumcast]
      exact Rat.num_div_den q
    rw [this]

/-- C7: on a validated config update whose path ends in allowedSlippage, the
normalizer leaves a fraction string unchanged, and rewrites a number or a
plain numeric non-fraction string to a fraction string that the percentage
validator accepts again. -/
theorem c7_slippage_normalizer (path : String) (v : CVal)
    (hpath : strEndsWith path "allowedSlippage" = true)
    (hvalid : validateAllowedSlippage path v = Except.ok ()) :
    (∀ s, v = CVal.str s → isFractionString s = true →
      updateAllowedSlippageToFraction path v = v) ∧
    (∀ q, v = CVal.num q →
      isFractionString (toFractionStringOfQ q) = true ∧
      updateAllowedSlippageToFraction path v = CVal.str (toFractionStringOfQ q) ∧
      validateAllowedSlippage path (CVal.str (toFractionStringOfQ q)) = Except.ok ()) ∧
    (∀ s, v = CVal.str s → isFractionString s = false →
      isFractionString (toFractionStringOfQ (parseFloatQ s)) = true ∧
      updateAllowedSlippageToFraction path v
        = CVal.str (toFractionStringOfQ (parseFloatQ s)) ∧
      validateAllowedSlippage path (CVal.str (toFractionStringOfQ (parseFloatQ s)))
        = Except.ok ()) := by
  refine ⟨?_, ?_, ?_⟩
  · rintro s rfl hfrac
    unfold updateAllowedSlippageToFraction
    rw [hpath]
    simp [hfrac]
  · rintro q rfl
    unfold validateAllowedSlippage at hvalid
    rw [hpath] at hvalid
    simp only [if_true] at hvalid
    split at hvalid
    case isTrue hcond =>
      simp only [Bool.true_and, isAllowedPercentage, Bool.and_eq_true,
        decide_eq_true_eq] at hcond
      obtain ⟨hq0, hq1⟩ := hcond
      obtain ⟨hfr, hfl, hback⟩ := toFractionStringOfQ_roundtrip q hq0
      refine ⟨hfr, ?_, ?_⟩
      · unfold updateAllowedSlippageToFraction
        rw [hpath]
        simp [toFractionString]
      · unfold validateAllowedSlippage
        rw [hpath]
        simp [isAllowedPercentage, hfr, hfl, hback, hq0, hq1]
    case isFalse => cases hvalid
  · rintro s rfl hfrac
    unfold validateAllowedSlippage at hvalid
    rw [hpath] at hvalid
    simp only [if_true] at hvalid
    split at hvalid
    case isTrue hcond =>
      simp only [hfrac, Bool.false_or, Bool.and_eq_true] at hcond
      obtain ⟨hfl, hperc⟩ := hcond
      simp only [isAllowedPercentage, hfl, if_true, Bool.and_eq_true,
        decide_eq_true_eq] at hperc
      obtain ⟨hq0, hq1⟩ := hperc
      obtain ⟨hfr2, hfl2, hback2⟩ := toFractionStringOfQ_roundtrip (parseFloatQ s) hq0
      refine ⟨hfr2, ?_, ?_⟩
      · unfold updateAllowedSlippageToFraction
        rw [hpath]
        simp [hfrac, toFractionString, hfl]
      · unfold validateAllowedSlippage
        rw [hpath]
        simp [isAllowedPercentage, hfr2, hfl2, hback2, hq0, hq1]
    case isFalse => cases hvalid

theorem length_filter_eq_iff {α : Type} (p : α → Bool) (l : List α) :
    (l.filter p).length = l.length ↔ ∀ a ∈ l, p a = true := by
  induction l with
  | nil => simp
  | cons x t ih =>
    by_cases hx : p x = true
    · simp [List.filter_cons, hx, ih]
    · have hx2 : p x = false := by
        cases hv : p x
        · rfl
        · exact absurd hv hx
      simp only [List.filter_cons, hx2, Bool.false_eq_true, if_false, List.length_cons]
      constructor
      · intro h
        have hle := List.length_filter_le p t
        omega
      · intro h
        exact absurd (h x (List.mem_cons_self _ _)) (by simp [hx2])

/-- A small configured store: the ethereum namespace with one network whose
token list file is configured.  Used by concrete witnesses. -/
def exStoreEth : ConfigStore :=
  [("ethereum",
    [("networks",
      CVal.obj [("mainnet",
        CVal.obj [("tokenListSource", CVal.str "lists/mainnet.json")])])])]

/-- A token already present in the example file. -/
def exTokenA : TokenInfo := ⟨1, "0xAbC", "Token", "TOK", 18⟩

/-- The example filesystem holding the configured token list file. -/
def exFs : FS := [("lists/mainnet.json", [exTokenA])]

/-- C2: a call whose address or symbol case-insensitively matches an entry
already in the configured token list fails with the Conflict error and
returns the file state unchanged (no write happens). -/
theorem c2_add_token_conflict (store : ConfigStore) (chainIdOf : String → Int)
    (fs : FS) (chain network tokenName symbol address : String) (decimals : ℚ)
    (p : String) (tl : List TokenInfo)
    (hnet : (availableEthNetworks store).contains network = true)
    (hsrc : cmGet store [configChainName, "networks", network, "tokenListSource"]
      = some (CVal.str p))
    (hp : p ≠ "")
    (hfile : alGet fs p = some tl)
    (hdup : ∃ t ∈ tl, isDuplicateOf address symbol t = true) :
    addDefaultToken store chainIdOf fs chain network tokenName symbol address decimals
      = (Except.error (GatewayError.conflict (conflictMsg address symbol)), fs) := by
  have hany : tl.any (isDuplicateOf address symbol) = true := by
    rcases hdup with ⟨t, ht, hd⟩
    exact List.any_eq_true.mpr ⟨t, ht, hd⟩
  have hmem : network ∈ availableEthNetworks store := by simpa using hnet
  simp [addDefaultToken, hmem, hsrc, CVal.truthy, hp, hfile, hany]

theorem c2_add_token_conflict_witness :
    addDefaultToken exStoreEth (fun _ => 1) exFs "ethereum" "mainnet" "Other" "XYZ"
        "0xABC" 18
      = (Except.error (GatewayError.conflict (conflictMsg "0xABC" "XYZ")), exFs) :=
  c2_add_token_conflict exStoreEth (fun _ => 1) exFs "ethereum" "mainnet" "Other" "XYZ"
    "0xABC" 18 "lists/mainnet.json" [exTokenA]
    (by decide) (by rfl) (by decide) (by rfl) (by decide)

/-- C3: on a present token list, removeDefaultToken fails with NotFound and
leaves the file untouched when no entry matches the identifier
case-insensitively, persists exactly the filtered list otherwise, and the
filter keeps precisely the entries whose address and symbol both differ from
the identifier case-insensitively. -/
theorem c3_remove_token (store : ConfigStore) (fs : FS)
    (chain network tok p : String) (tl : List TokenInfo)
    (hnet : (availableEthNetworks store).contains network = true)
    (hsrc : cmGet store [configChainName, "networks", network, "tokenListSource"]
      = some (CVal.str p))
    (hp : p ≠ "")
    (hfile : alGet fs p = some tl) :
    ((∀ t ∈ tl, keepsToken (lowerStr tok) t = true) →
      removeDefaultToken store fs chain network tok
        = (Except.error (GatewayError.notFound (tokenNotFoundMsg tok)), fs)) ∧
    ((∃ t ∈ tl, keepsToken (lowerStr tok) t = false) →
      removeDefaultToken store fs chain network tok
        = (Except.ok (), alSet fs p (tl.filter (keepsToken (lowerStr tok))))) ∧
    (∀ t, t ∈ tl.filter (keepsToken (lowerStr tok)) ↔
      t ∈ tl ∧ ¬(lowerStr t.address = lowerStr tok ∨ lowerStr t.symbol = lowerStr tok)) := by
  have hmem : network ∈ availableEthNetworks store := by simpa using hnet
  refine ⟨?_, ?_, ?_⟩
  · intro hkeep
    have hlen : (tl.filter (keepsToken (lowerStr tok))).length = tl.length :=
      (length_filter_eq_iff _ tl).mpr hkeep
    simp [removeDefaultToken, hmem, hsrc, CVal.truthy, hp, hfile, hlen]
  · intro hsome
    have hlen : (tl.filter (keepsToken (lowerStr tok))).length ≠ tl.length := by
      intro he
      rcases hsome with ⟨t, ht, hfalse⟩
      have := (length_filter_eq_iff _ tl).mp he t ht
      rw [this] at hfalse
      cases hfalse
    simp [removeDefaultToken, hmem, hsrc, CVal.truthy, hp, hfile, hlen]
  · intro t
    rw [List.mem_filter]
    simp [keepsToken, not_or]

theorem c3_remove_token_witness :
    removeDefaultToken exStoreEth exFs "ethereum" "mainnet" "missing"
      = (Except.error (GatewayError.notFound (tokenNotFoundMsg "missing")), exFs) :=
  (c3_remove_token exStoreEth exFs "ethereum" "mainnet" "missing" "lists/mainnet.json"
    [exTokenA] (by decide) (by rfl) (by decide) (by rfl)).1 (by decide)

/-- C8: addDefaultToken validates the network against the configured
networks of the namespace it resolves (the ethereum namespace): an
unconfigured network fails with the bad-request error whose message lists
the configured networks, and a configured network never produces a
bad-request error. -/
theorem c8_add_token_network_validation (store : ConfigStore)
    (chainIdOf : String → Int) (fs : FS)
    (chain network tokenName symbol address : String) (decimals : ℚ) :
    ((availableEthNetworks store).contains network = false →
      addDefaultToken store chainIdOf fs chain network tokenName symbol address decimals
        = (Except.error (GatewayError.badRequest
            (unsupportedNetworkMsg network (availableEthNetworks store))), fs)) ∧
    ((availableEthNetworks store).contains network = true →
      ∀ m, (addDefaultToken store chainIdOf fs chain network tokenName symbol
          address decimals).1
        ≠ Except.error (GatewayError.badRequest m)) := by
  constructor
  · intro h
    have hmem : ¬(network ∈ availableEthNetworks store) := by simpa using h
    simp [addDefaultToken, h, hmem]
  · intro h m
    simp only [addDefaultToken, h, Bool.not_true, Bool.false_eq_true, if_false]
    cases hsrc : cmGet store [configChainName, "networks", network, "tokenListSource"] with
    | none => simp
    | some v =>
      cases v with
      | str s =>
        by_cases hs : CVal.truthy (CVal.str s) = true
        · simp only [hs, if_true]
          by_cases hdup : (((alGet fs s).getD []).any (isDuplicateOf address symbol)) = true
          · simp [hdup]
          · simp only [Bool.not_eq_true] at hdup
            simp [hdup]
        · simp only [Bool.not_eq_true] at hs
          simp [hs]
      | num q =>
        by_cases hq : CVal.truthy (CVal.num q) = true
        · simp [hq]
        · simp only [Bool.not_eq_true] at hq
          simp [hq]
      | boolV b => cases b <;> simp [CVal.truthy]
      | obj fields => simp [CVal.truthy]
      | arr items => simp [CVal.truthy]

theorem c8_add_token_network_validation_witness :
    addDefaultToken exStoreEth (fun _ => 1) exFs "ethereum" "goerli" "N" "S" "0xA" 18
      = (Except.error (GatewayError.badRequest
          (unsupportedNetworkMsg "goerli" (availableEthNetworks exStoreEth))), exFs) :=
  (c8_add_token_network_validation exStoreEth (fun _ => 1) exFs "ethereum" "goerli"
    "N" "S" "0xA" 18).1 (by decide)

/-- The token written by the C9 counterexample: its decimals field is the
negative number that was requested. -/
def negDecimalsToken : TokenInfo := ⟨1, "0xbad", "Bad", "BAD", -1⟩

/-- C9 counterexample: a successful addDefaultToken call persists a token
entry with negative (hence not non-negative integral) decimals, because
nothing validates the decimals argument. -/
theorem c9_counterexample_negative_decimals :
    addDefaultToken exStoreEth (fun _ => 1) [] "ethereum" "mainnet" "Bad" "BAD"
        "0xbad" (-1)
      = (Except.ok (), [("lists/mainnet.json", [negDecimalsToken])]) ∧
    negDecimalsToken.decimals < 0 := by
  constructor
  · rfl
  · norm_num [negDecimalsToken]

/-- C9 amended: a successful addDefaultToken call appends exactly the entry
built from its arguments, decimals passed through verbatim; the entry has
non-negative integral decimals only when the argument does. -/
theorem c9_add_token_decimals_passthrough (store : ConfigStore)
    (chainIdOf : String → Int) (fs : FS)
    (chain network tokenName symbol address : String) (decimals : ℚ) (p : String)
    (hnet : (availableEthNetworks store).contains network = true)
    (hsrc : cmGet store [configChainName, "networks", network, "tokenListSource"]
      = some (CVal.str p))
    (hp : p ≠ "")
    (hnodup : (((alGet fs p).getD []).any (isDuplicateOf address symbol)) = false) :
    addDefaultToken store chainIdOf fs chain network tokenName symbol address decimals
      = (Except.ok (), alSet fs p ((alGet fs p).getD []
          ++ [⟨chainIdOf network, address, tokenName, symbol, decimals⟩])) := by
  have hmem : network ∈ availableEthNetworks store := by simpa using hnet
  simp [addDefaultToken, hmem, hsrc, CVal.truthy, hp, hnodup]

theorem c9_add_token_decimals_passthrough_witness :
    addDefaultToken exStoreEth (fun _ => 1) [] "ethereum" "mainnet" "T2" "TK2" "0xcc" 7
      = (Except.ok (), alSet ([] : FS) "lists/mainnet.json"
          ((alGet ([] : FS) "lists/mainnet.json").getD []
            ++ [⟨1, "0xcc", "T2", "TK2", 7⟩])) :=
  c9_add_token_decimals_passthrough exStoreEth (fun _ => 1) [] "ethereum" "mainnet"
    "T2" "TK2" "0xcc" 7 "lists/mainnet.json" (by decide) (by rfl) (by decide)
    (by decide)

/-- C10: the chain argument of addDefaultToken and removeDefaultToken is
inert (the source uses it only in a log line): any two calls differing only
in the chain string have identical outcomes, error classes and resulting
file states, because both operations resolve networks and the token list
path under the ethereum namespace. -/
theorem c10_chain_argument_irrelevant (store : ConfigStore)
    (chainIdOf : String → Int) (fs : FS)
    (chainA chainB network tokenName symbol address : String) (decimals : ℚ)
    (tokenToRemove : String) :
    addDefaultToken store chainIdOf fs chainA network tokenName symbol address decimals
      = addDefaultToken store chainIdOf fs chainB network tokenName symbol address decimals
    ∧ removeDefaultToken store fs chainA network tokenToRemove
      = removeDefaultToken store fs chainB network tokenToRemove :=
  ⟨rfl, rfl⟩

theorem isEmpty_false_of_ne_nil {α : Type} (l : List α) (h : l ≠ []) :
    l.isEmpty = false := by
  cases l with
  | nil => exact absurd rfl h
  | cons a t => rfl

/-- The three ways in which a connector can lack configured networks: absent
namespace, no networks entry, or an empty networks object. -/
def hasNoConfiguredNetworks (store : ConfigStore) (baseConnector : String) : Prop :=
  getNamespace store baseConnector = none ∨
  (∃ fields, getNamespace store baseConnector = some fields ∧
    alGet fields "networks" = none) ∨
  (∃ fields, getNamespace store baseConnector = some fields ∧
    alGet fields "networks" = some (CVal.obj []))

/-- C5: for a well-formed connector string whose namespace is absent, lacks
a networks entry, or has zero configured networks, getDefaultPools returns
the empty mapping and raises no error. -/
theorem c5_get_default_pools_empty (store : ConfigStore) (connector : String)
    (hb : connectorNameOf connector ≠ "")
    (hc : connectorTypeOf connector ≠ "")
    (habs : hasNoConfiguredNetworks store (connectorNameOf connector)) :
    getDefaultPools store connector = Except.ok (CVal.obj []) := by
  rcases habs with h | ⟨fields, hf, hn⟩ | ⟨fields, hf, hn⟩
  · simp [getDefaultPools, hb, hc, h]
  · simp [getDefaultPools, hb, hc, hf, hn]
  · simp [getDefaultPools, hb, hc, hf, hn]

theorem c5_get_default_pools_empty_witness :
    getDefaultPools [] "uniswap/amm" = Except.ok (CVal.obj []) :=
  c5_get_default_pools_empty [] "uniswap/amm" (by decide) (by decide) (Or.inl rfl)

/-- Is the outcome a NotFound-class error. -/
def isNotFoundResult : Except GatewayError ConfigStore → Bool
  | Except.error (GatewayError.notFound _) => true
  | _ => false

/-- C4 counterexample: with a connector namespace that has no configured
networks, addDefaultPool fails with an internal server error (the thrown
Error is wrapped by the catch block), not with a NotFound-class error as the
claim states. -/
theorem c4_counterexample_pool_error_class :
    addDefaultPool [("uniswap", [])] "uniswap/amm" "WETH" "USDC" (some "0xPOOL")
      = Except.error (GatewayError.internalError
          (wrapAddPoolMsg (connectorConfigMissingMsg "uniswap"))) ∧
    isNotFoundResult
      (addDefaultPool [("uniswap", [])] "uniswap/amm" "WETH" "USDC" (some "0xPOOL"))
      = false :=
  ⟨rfl, rfl⟩

/-- C4 amended: the invalid-argument cases are as claimed (missing pool
address, missing connector name or type give bad-request errors), but a
connector without configured networks produces an internal server error,
not a NotFound-class error. -/
theorem c4_add_pool_error_classes (store : ConfigStore)
    (connector baseToken quoteToken : String) (poolAddress : Option String) :
    (optStrTruthy poolAddress = false →
      addDefaultPool store connector baseToken quoteToken poolAddress
        = Except.error (GatewayError.badRequest poolAddressRequiredMsg)) ∧
    (optStrTruthy poolAddress = true → connectorNameOf connector = "" →
      addDefaultPool store connector baseToken quoteToken poolAddress
        = Except.error (GatewayError.badRequest connectorNameRequiredMsg)) ∧
    (optStrTruthy poolAddress = true → connectorNameOf connector ≠ "" →
      connectorTypeOf connector = "" →
      addDefaultPool store connector baseToken quoteToken poolAddress
        = Except.error (GatewayError.badRequest connectorTypeRequiredMsg)) ∧
    (optStrTruthy poolAddress = true → connectorNameOf connector ≠ "" →
      connectorTypeOf connector ≠ "" →
      hasNoConfiguredNetworks store (connectorNameOf connector) →
      ∃ m, addDefaultPool store connector baseToken quoteToken poolAddress
        = Except.error (GatewayError.internalError m)) := by
  refine ⟨?_, ?_, ?_, ?_⟩
  · intro h
    simp [addDefaultPool, h]
  · intro h hb
    simp [addDefaultPool, h, hb]
  · intro h hb hcEmpty
    simp [addDefaultPool, h, hb, hcEmpty]
  · intro h hb hcNe habs
    rcases habs with hnone | ⟨fields, hf, hn⟩ | ⟨fields, hf, hn⟩
    · refine ⟨wrapAddPoolMsg (connectorConfigMissingMsg (connectorNameOf connector)), ?_⟩
      simp [addDefaultPool, h, hb, hcNe, hnone]
    · refine ⟨wrapAddPoolMsg (connectorConfigMissingMsg (connectorNameOf connector)), ?_⟩
      simp [addDefaultPool, h, hb, hcNe, hf, hn]
    · refine ⟨wrapAddPoolMsg (noNetworksConfiguredMsg (connectorNameOf connector)), ?_⟩
      simp [addDefaultPool, h, hb, hcNe, hf, hn]

theorem c4_add_pool_error_classes_witness :
    addDefaultPool [("uniswap", ([] : Obj))] "uniswap/amm" "WETH" "USDC" none
      = Except.error (GatewayError.badRequest poolAddressRequiredMsg) ∧
    addDefaultPool [("uniswap", ([] : Obj))] "uniswap" "WETH" "USDC" (some "0xP")
      = Except.error (GatewayError.badRequest connectorTypeRequiredMsg) :=
  ⟨(c4_add_pool_error_classes [("uniswap", ([] : Obj))] "uniswap/amm" "WETH" "USDC"
      none).1 rfl,
   (c4_add_pool_error_classes [("uniswap", ([] : Obj))] "uniswap" "WETH" "USDC"
      (some "0xP")).2.2.1 (by decide) (by decide) (by decide)⟩

/-- The active network resolution is stable under replacing the value of the
already-present active network by an object. -/
theorem activeNetworkOf_alSet_obj (nets : Obj) (active : String) (v0 : CVal)
    (w : Obj) (hmem : alGet nets active = some v0)
    (hact : activeNetworkOf nets = active) :
    activeNetworkOf (alSet nets active (CVal.obj w)) = active := by
  by_cases hmb : active = "mainnet-beta"
  · subst hmb
    unfold activeNetworkOf
    rw [alGet_alSet_self]
    simp [CVal.truthy]
  · have hget : alGet (alSet nets active (CVal.obj w)) "mainnet-beta"
        = alGet nets "mainnet-beta" :=
      alGet_alSet_ne nets active "mainnet-beta" _ hmb
    have hkeys : (alSet nets active (CVal.obj w)).map Prod.fst = nets.map Prod.fst :=
      alSet_keys_of_mem nets active _ v0 hmem
    unfold activeNetworkOf at hact ⊢
    rw [hget, hkeys]
    cases halt : alGet nets "mainnet-beta" with
    | none =>
      rw [halt] at hact
      simp at hact ⊢
      exact hact
    | some v =>
      rw [halt] at hact
      by_cases htr : v.truthy = true
      · simp [htr] at hact
        exact absurd hact.symm hmb
      · have htr2 : v.truthy = false := by
          cases hv : v.truthy
          · rfl
          · exact absurd hv htr
        simp [htr2] at hact ⊢
        exact hact

theorem splitOnChar_cons_eq (sep c : Char) (rest : List Char) :
    splitOnChar sep (c :: rest) =
      (if c = sep then [] :: splitOnChar sep rest
       else ((c :: (splitOnChar sep rest).headD [])
         :: (splitOnChar sep rest).tail)) := by
  conv_lhs => unfold splitOnChar
  cases h : splitOnChar sep rest with
  | nil => exact absurd h (splitOnChar_ne_nil sep rest)
  | cons x t =>
    by_cases hc : c = sep
    · simp [hc]
    · simp [hc]

theorem splitOnChar_sep_append (sep : Char) (a b : List Char) :
    splitOnChar sep (a ++ sep :: b) = splitOnChar sep a ++ splitOnChar sep b := by
  induction a with
  | nil =>
    simp only [List.nil_append]
    rw [splitOnChar_cons_eq]
    simp [splitOnChar]
  | cons c as ih =>
    simp only [List.cons_append]
    rw [splitOnChar_cons_eq, splitOnChar_cons_eq, ih]
    by_cases hc : c = sep
    · simp [hc]
    · simp only [hc, if_false]
      cases h2 : splitOnChar sep as with
      | nil => exact absurd h2 (splitOnChar_ne_nil sep as)
      | cons x t => simp

theorem strData_append (s1 s2 : String) : (s1 ++ s2).data = s1.data ++ s2.data := by
  cases s1
  cases s2
  rfl

theorem splitDots_append (s1 s2 : String) :
    splitDots (s1 ++ "." ++ s2) = splitDots s1 ++ splitDots s2 := by
  unfold splitDots
  rw [strData_append, strData_append]
  have hdot : ("." : String).data = ['.'] := rfl
  rw [hdot, List.append_assoc]
  simp only [List.cons_append, List.nil_append]
  rw [splitOnChar_sep_append, List.map_append]

/-- The C6 counterexample store of the overwrite scenario: the pair already
holds an old address. -/
def c6Store : ConfigStore :=
  [("uniswap",
    [("networks",
      CVal.obj [("mainnet",
        CVal.obj [("amm", CVal.obj [("WETH-USDC", CVal.str "0xOLD")])])])])]

/-- c6Store after adding the pair: the old address has been overwritten. -/
def c6StoreAfterAdd : ConfigStore :=
  [("uniswap",
    [("networks",
      CVal.obj [("mainnet",
        CVal.obj [("amm", CVal.obj [("WETH-USDC", CVal.str "0xNEW")])])])])]

/-- c6StoreAfterAdd after the removal: the pair is gone entirely, the
pre-add address is not restored. -/
def c6StoreAfterRemove : ConfigStore :=
  [("uniswap",
    [("networks",
      CVal.obj [("mainnet", CVal.obj [("amm", CVal.obj [])])])])]

/-- A store whose active network object lacks the connector-type entry. -/
def c6NoAmmStore : ConfigStore :=
  [("uniswap",
    [("networks", CVal.obj [("mainnet", CVal.obj [])])])]

/-- c6NoAmmStore after an add: the write created the connector-type
container. -/
def c6NoAmmAfterAdd : ConfigStore :=
  [("uniswap",
    [("networks",
      CVal.obj [("mainnet",
        CVal.obj [("amm", CVal.obj [("WETH-USDC", CVal.str "0xP")])])])])]

/-- A store whose connector-type object exists and is empty (also the state
c6NoAmmAfterAdd is left in by the removal). -/
def c6AmmEmptyStore : ConfigStore :=
  [("uniswap",
    [("networks",
      CVal.obj [("mainnet", CVal.obj [("amm", CVal.obj [])])])])]

/-- c6AmmEmptyStore after adding a pair whose base token contains a dot:
the dotted configPath is re-split by the store, so the pair addressed a
deeper path and the write created an intermediate WETH container. -/
def c6DotAfterAdd : ConfigStore :=
  [("uniswap",
    [("networks",
      CVal.obj [("mainnet",
        CVal.obj [("amm",
          CVal.obj [("WETH", CVal.obj [("X-USDC", CVal.str "0xP")])])])])])]

/-- c6DotAfterAdd after removing the same dotted pair: the intermediate
container created by the add is left behind empty. -/
def c6DotAfterRemove : ConfigStore :=
  [("uniswap",
    [("networks",
      CVal.obj [("mainnet",
        CVal.obj [("amm", CVal.obj [("WETH", CVal.obj [])])])])])]

/-- C6 counterexample: adding then removing the same pair fails to restore
the registry in three concrete ways.  With the pair already present, the
old address is overwritten and then deleted: the registry view held the old
address before and is empty afterwards.  With the connector-type container
absent, the add creates it and the remove leaves it behind empty.  With a
base token containing a dot, the dotted configPath (re-split by the store)
addresses a deeper path, and the add creates an intermediate container the
remove leaves behind. -/
theorem c6_counterexample_roundtrip_failures :
    (addDefaultPool c6Store "uniswap/amm" "WETH" "USDC" (some "0xNEW")
        = Except.ok c6StoreAfterAdd ∧
      removeDefaultPool c6StoreAfterAdd "uniswap/amm" "WETH" "USDC"
        = Except.ok c6StoreAfterRemove ∧
      getDefaultPools c6Store "uniswap/amm"
        = Except.ok (CVal.obj [("WETH-USDC", CVal.str "0xOLD")]) ∧
      getDefaultPools c6StoreAfterRemove "uniswap/amm"
        = Except.ok (CVal.obj [])) ∧
    (addDefaultPool c6NoAmmStore "uniswap/amm" "WETH" "USDC" (some "0xP")
        = Except.ok c6NoAmmAfterAdd ∧
      removeDefaultPool c6NoAmmAfterAdd "uniswap/amm" "WETH" "USDC"
        = Except.ok c6AmmEmptyStore ∧
      cmGet c6NoAmmStore ["uniswap", "networks", "mainnet", "amm"] = none ∧
      cmGet c6AmmEmptyStore ["uniswap", "networks", "mainnet", "amm"]
        = some (CVal.obj [])) ∧
    (addDefaultPool c6AmmEmptyStore "uniswap/amm" "WETH.X" "USDC" (some "0xP")
        = Except.ok c6DotAfterAdd ∧
      removeDefaultPool c6DotAfterAdd "uniswap/amm" "WETH.X" "USDC"
        = Except.ok c6DotAfterRemove ∧
      cmGet c6AmmEmptyStore ["uniswap", "networks", "mainnet", "amm", "WETH"]
        = none ∧
      cmGet c6DotAfterRemove ["uniswap", "networks", "mainnet", "amm", "WETH"]
        = some (CVal.obj [])) :=
  ⟨⟨rfl, rfl, rfl, rfl⟩, ⟨rfl, rfl, rfl, rfl⟩, ⟨rfl, rfl, rfl, rfl⟩⟩

/-- C6 amended: adding a pool then removing the same pair returns the
registry to exactly its pre-add state, provided the write addressed a
single fresh key: each addressed component (connector name, resolved
active network, connector type, pair key) is one dot-free path segment,
the pair key was absent before the add, and the active-network and
connector-type entries already existed as objects.  Each proviso is forced
by one scenario of the counterexample. -/
theorem c6_add_remove_pool_roundtrip (store : ConfigStore)
    (connector baseToken quoteToken addr base ctype active : String)
    (fields nets netFields pools : Obj)
    (hb : connectorNameOf connector = base) (hbne : base ≠ "")
    (hc : connectorTypeOf connector = ctype) (hcne : ctype ≠ "")
    (haddr : addr ≠ "")
    (hsb : splitDots base = [base])
    (hsa : splitDots active = [active])
    (hst : splitDots ctype = [ctype])
    (hsp : splitDots (baseToken ++ "-" ++ quoteToken)
      = [baseToken ++ "-" ++ quoteToken])
    (h1 : alGet store base = some fields)
    (h2 : alGet fields "networks" = some (CVal.obj nets))
    (h3 : nets ≠ [])
    (hact : activeNetworkOf nets = active)
    (h4 : alGet nets active = some (CVal.obj netFields))
    (h5 : alGet netFields ctype = some (CVal.obj pools))
    (h6 : alGet pools (baseToken ++ "-" ++ quoteToken) = none) :
    ∃ store2,
      addDefaultPool store connector baseToken quoteToken (some addr)
        = Except.ok store2 ∧
      removeDefaultPool store2 connector baseToken quoteToken
        = Except.ok store := by
  have htr : optStrTruthy (some addr) = true := by simp [optStrTruthy, haddr]
  have hne3 : nets.isEmpty = false := isEmpty_false_of_ne_nil nets h3
  have hnetseg : splitDots "networks" = ["networks"] := rfl
  have hsegs : splitDots (base ++ "." ++ "networks" ++ "." ++ active ++ "." ++ ctype
      ++ "." ++ (baseToken ++ "-" ++ quoteToken))
      = [base, "networks", active, ctype, baseToken ++ "-" ++ quoteToken] := by
    rw [splitDots_append, splitDots_append, splitDots_append, splitDots_append,
        hsb, hnetseg, hsa, hst, hsp]
    rfl
  refine ⟨alSet store base (alSet fields "networks" (CVal.obj (alSet nets active
    (CVal.obj (alSet netFields ctype (CVal.obj (alSet pools
      (baseToken ++ "-" ++ quoteToken) (CVal.str addr)))))))), ?_, ?_⟩
  · simp [addDefaultPool, htr, hb, hc, hbne, hcne, getNamespace, h1, h2, hne3,
      hact, hsegs, cmSet, setObjPath, h4, h5]
  · have hA : alGet (alSet store base (alSet fields "networks" (CVal.obj (alSet nets
        active (CVal.obj (alSet netFields ctype (CVal.obj (alSet pools
          (baseToken ++ "-" ++ quoteToken) (CVal.str addr))))))))) base
        = some (alSet fields "networks" (CVal.obj (alSet nets active (CVal.obj
            (alSet netFields ctype (CVal.obj (alSet pools
              (baseToken ++ "-" ++ quoteToken) (CVal.str addr)))))))) :=
      alGet_alSet_self _ _ _
    have hB : alGet (alSet fields "networks" (CVal.obj (alSet nets active (CVal.obj
        (alSet netFields ctype (CVal.obj (alSet pools
          (baseToken ++ "-" ++ quoteToken) (CVal.str addr)))))))) "networks"
        = some (CVal.obj (alSet nets active (CVal.obj (alSet netFields ctype
            (CVal.obj (alSet pools (baseToken ++ "-" ++ quoteToken)
              (CVal.str addr))))))) :=
      alGet_alSet_self _ _ _
    have hC : (alSet nets active (CVal.obj (alSet netFields ctype (CVal.obj
        (alSet pools (baseToken ++ "-" ++ quoteToken)
          (CVal.str addr)))))).isEmpty = false :=
      isEmpty_false_of_ne_nil _ (alSet_ne_nil _ _ _)
    have hD : activeNetworkOf (alSet nets active (CVal.obj (alSet netFields ctype
        (CVal.obj (alSet pools (baseToken ++ "-" ++ quoteToken)
          (CVal.str addr)))))) = active :=
      activeNetworkOf_alSet_obj nets active _ _ h4 hact
    have hE : alGet (alSet nets active (CVal.obj (alSet netFields ctype (CVal.obj
        (alSet pools (baseToken ++ "-" ++ quoteToken) (CVal.str addr)))))) active
        = some (CVal.obj (alSet netFields ctype (CVal.obj (alSet pools
            (baseToken ++ "-" ++ quoteToken) (CVal.str addr))))) :=
      alGet_alSet_self _ _ _
    have hF : alGet (alSet netFields ctype (CVal.obj (alSet pools
        (baseToken ++ "-" ++ quoteToken) (CVal.str addr)))) ctype
        = some (CVal.obj (alSet pools (baseToken ++ "-" ++ quoteToken)
            (CVal.str addr))) :=
      alGet_alSet_self _ _ _
    have hDel : alDel (alSet pools (baseToken ++ "-" ++ quoteToken) (CVal.str addr))
        (baseToken ++ "-" ++ quoteToken) = pools :=
      alDel_alSet_of_none pools _ _ h6
    have hNF : alSet (alSet netFields ctype (CVal.obj (alSet pools
        (baseToken ++ "-" ++ quoteToken) (CVal.str addr)))) ctype (CVal.obj pools)
        = netFields := by
      rw [alSet_alSet]
      exact alSet_eq_self netFields ctype _ h5
    have hNets : alSet (alSet nets active (CVal.obj (alSet netFields ctype
        (CVal.obj (alSet pools (baseToken ++ "-" ++ quoteToken)
          (CVal.str addr)))))) active (CVal.obj netFields) = nets := by
      rw [alSet_alSet]
      exact alSet_eq_self nets active _ h4
    have hFields : alSet (alSet fields "networks" (CVal.obj (alSet nets active
        (CVal.obj (alSet netFields ctype (CVal.obj (alSet pools
          (baseToken ++ "-" ++ quoteToken) (CVal.str addr)))))))) "networks"
        (CVal.obj nets) = fields := by
      rw [alSet_alSet]
      exact alSet_eq_self fields "networks" _ h2
    have hStore : alSet (alSet store base (alSet fields "networks" (CVal.obj
        (alSet nets active (CVal.obj (alSet netFields ctype (CVal.obj
          (alSet pools (baseToken ++ "-" ++ quoteToken)
            (CVal.str addr))))))))) base fields = store := by
      rw [alSet_alSet]
      exact alSet_eq_self store base _ h1
    simp [removeDefaultPool, hb, hc, hbne, hcne, getNamespace, hA, hB, hC, hD,
      hsegs, cmDelete, delObjPath, hE, hF, hDel, hNF, hNets, hFields, hStore]

/-- The configured store of the C6 witness: the pair is absent and the
connector-type object exists. -/
def c6WitnessStore : ConfigStore :=
  [("uniswap",
    [("networks",
      CVal.obj [("mainnet", CVal.obj [("amm", CVal.obj [])])])])]

theorem c6_add_remove_pool_roundtrip_witness :
    ∃ store2,
      addDefaultPool c6WitnessStore "uniswap/amm" "WETH" "USDC" (some "0xP")
        = Except.ok store2 ∧
      removeDefaultPool store2 "uniswap/amm" "WETH" "USDC"
        = Except.ok c6WitnessStore :=
  c6_add_remove_pool_roundtrip c6WitnessStore "uniswap/amm" "WETH" "USDC" "0xP"
    "uniswap" "amm" "mainnet"
    [("networks", CVal.obj [("mainnet", CVal.obj [("amm", CVal.obj [])])])]
    [("mainnet", CVal.obj [("amm", CVal.obj [])])]
    [("amm", CVal.obj [])] []
    (by decide) (by decide) (by decide) (by decide) (by decide)
    (by decide) (by decide) (by decide) (by decide)
    rfl rfl (List.cons_ne_nil _ _) (by decide) rfl rfl rfl

theorem c7_slippage_normalizer_witness :
    isFractionString (toFractionStringOfQ 0) = true ∧
    updateAllowedSlippageToFraction "uni.allowedSlippage" (CVal.num 0)
      = CVal.str (toFractionStringOfQ 0) ∧
    validateAllowedSlippage "uni.allowedSlippage" (CVal.str (toFractionStringOfQ 0))
      = Except.ok () :=
  (c7_slippage_normalizer "uni.allowedSlippage" (CVal.num 0) (by decide)
    (by rfl)).2.1 0 rfl

end Gateway
